import Mathlib

/-!
Verification of the STEPS lexer (steps-lang/steps).

The development shallowly embeds the lexer package
(`src/steps/compiler/lexer/`): character classes (`classes.py`),
the token model and tokenizer context (`token.py`), the state machine
(`states.py`) and the driver (`__init__.py`).  Python strings are
modelled as `List Char`, the mutable `TokenizerContext` as a structure
threaded through the transition functions, exceptions as `Except`, and
the module-level `KEYWORDS` generator as an explicit generator-state
value (the list of not-yet-consumed items).
-/

namespace Steps

/-- Characters of a Python string, in order. -/
abbrev Str := List Char

/-- The `TokenKind` enumeration from `token.py`, in source order. -/
inductive TokenKind where
  | WHITE_SPACE
  | END_OF_LINE
  | IDENTIFIER
  | DUMMY_IDENTIFIER
  | KW_AND
  | KW_AS
  | KW_ASSERT
  | KW_AXIOM
  | KW_CASE
  | KW_DIV
  | KW_ELSE
  | KW_EMIT
  | KW_ENUM
  | KW_EXTENDS
  | KW_FINALLY
  | KW_FN
  | KW_FORWARD
  | KW_FORWARDER
  | KW_FROM
  | KW_GIVEN
  | KW_IF
  | KW_IMPORT
  | KW_IN
  | KW_INV
  | KW_INITIALLY
  | KW_LEMMA
  | KW_LET
  | KW_MOD
  | KW_NEW
  | KW_NOT
  | KW_OF
  | KW_OP
  | KW_OR
  | KW_PROC
  | KW_PURE
  | KW_RETURN
  | KW_SPAWN
  | KW_SWITCH
  | KW_THEOREM
  | KW_THEN
  | KW_TYPE
  | KW_VAR
  | KW_VARIANT
  | KW_WHERE
  | KW_WHILE
  | KW_XOR
  | EOF
  | ERR_IDENTIFIER
  | LEFT_PARENTHESIS
  | RIGHT_PARENTHESIS
  | LEFT_BRACKET
  | RIGHT_BRACKET
  | LEFT_BRACE
  | RIGHT_BRACE
  | COMMA
  | COLON
  | DOT
  | DOTDOT
  | ELLIPSIS
  | RIGHT_ARROW
  | RESERVED_SEMICOLON
  | RESERVED_COMMERCIAL_AT
  | RESERVED_EXCLAMATION_MARK
  | RESERVED_AMPERSAND
  | RESERVED_PERCENT
  | RESERVED_DOLLAR
  | OP_EQ
  | OP_LT
  | OP_GT
  | OP_LEQ
  | OP_GEQ
  | OP_NEQ
  | OP_ASSIGN
  | OP_CROSS
  | OP_PLUS
  | OP_MINUS
  | OP_MULTIPLY
  | OP_DIVIDE
  | OP_PLUS_ASSIGN
  | OP_MINUS_ASSIGN
  | OP_MULTIPLY_ASSIGN
  | OP_DIVIDE_ASSIGN
  | OP_EXPONENT
  | OP_CIRCLED_EQ
  | OP_CIRCLED_LT
  | OP_CIRCLED_GT
  | OP_CIRCLED_LEQ
  | OP_CIRCLED_GEQ
  | OP_CIRCLED_NEQ
  | OP_CIRCLED_CROSS
  | OP_CIRCLED_PLUS
  | OP_CIRCLED_MINUS
  | OP_CIRCLED_MULTIPLY
  | OP_CIRCLED_DIVIDE
  | OP_CIRCLED_DOT
  | OP_BOXED_EQ
  | OP_BOXED_LT
  | OP_BOXED_GT
  | OP_BOXED_LEQ
  | OP_BOXED_GEQ
  | OP_BOXED_NEQ
  | OP_BOXED_CROSS
  | OP_BOXED_PLUS
  | OP_BOXED_MINUS
  | OP_BOXED_MULTIPLY
  | OP_BOXED_DIVIDE
  | OP_BOXED_DOT
  | OP_PARENTHESES
  | OP_BRACKETS
  | OP_BRACES
  deriving DecidableEq, Repr

/-- The Python enum member name (`kind.name`). -/
def kindName : TokenKind → String
  | .WHITE_SPACE => "WHITE_SPACE"
  | .END_OF_LINE => "END_OF_LINE"
  | .IDENTIFIER => "IDENTIFIER"
  | .DUMMY_IDENTIFIER => "DUMMY_IDENTIFIER"
  | .KW_AND => "KW_AND"
  | .KW_AS => "KW_AS"
  | .KW_ASSERT => "KW_ASSERT"
  | .KW_AXIOM => "KW_AXIOM"
  | .KW_CASE => "KW_CASE"
  | .KW_DIV => "KW_DIV"
  | .KW_ELSE => "KW_ELSE"
  | .KW_EMIT => "KW_EMIT"
  | .KW_ENUM => "KW_ENUM"
  | .KW_EXTENDS => "KW_EXTENDS"
  | .KW_FINALLY => "KW_FINALLY"
  | .KW_FN => "KW_FN"
  | .KW_FORWARD => "KW_FORWARD"
  | .KW_FORWARDER => "KW_FORWARDER"
  | .KW_FROM => "KW_FROM"
  | .KW_GIVEN => "KW_GIVEN"
  | .KW_IF => "KW_IF"
  | .KW_IMPORT => "KW_IMPORT"
  | .KW_IN => "KW_IN"
  | .KW_INV => "KW_INV"
  | .KW_INITIALLY => "KW_INITIALLY"
  | .KW_LEMMA => "KW_LEMMA"
  | .KW_LET => "KW_LET"
  | .KW_MOD => "KW_MOD"
  | .KW_NEW => "KW_NEW"
  | .KW_NOT => "KW_NOT"
  | .KW_OF => "KW_OF"
  | .KW_OP => "KW_OP"
  | .KW_OR => "KW_OR"
  | .KW_PROC => "KW_PROC"
  | .KW_PURE => "KW_PURE"
  | .KW_RETURN => "KW_RETURN"
  | .KW_SPAWN => "KW_SPAWN"
  | .KW_SWITCH => "KW_SWITCH"
  | .KW_THEOREM => "KW_THEOREM"
  | .KW_THEN => "KW_THEN"
  | .KW_TYPE => "KW_TYPE"
  | .KW_VAR => "KW_VAR"
  | .KW_VARIANT => "KW_VARIANT"
  | .KW_WHERE => "KW_WHERE"
  | .KW_WHILE => "KW_WHILE"
  | .KW_XOR => "KW_XOR"
  | .EOF => "EOF"
  | .ERR_IDENTIFIER => "ERR_IDENTIFIER"
  | .LEFT_PARENTHESIS => "LEFT_PARENTHESIS"
  | .RIGHT_PARENTHESIS => "RIGHT_PARENTHESIS"
  | .LEFT_BRACKET => "LEFT_BRACKET"
  | .RIGHT_BRACKET => "RIGHT_BRACKET"
  | .LEFT_BRACE => "LEFT_BRACE"
  | .RIGHT_BRACE => "RIGHT_BRACE"
  | .COMMA => "COMMA"
  | .COLON => "COLON"
  | .DOT => "DOT"
  | .DOTDOT => "DOTDOT"
  | .ELLIPSIS => "ELLIPSIS"
  | .RIGHT_ARROW => "RIGHT_ARROW"
  | .RESERVED_SEMICOLON => "RESERVED_SEMICOLON"
  | .RESERVED_COMMERCIAL_AT => "RESERVED_COMMERCIAL_AT"
  | .RESERVED_EXCLAMATION_MARK => "RESERVED_EXCLAMATION_MARK"
  | .RESERVED_AMPERSAND => "RESERVED_AMPERSAND"
  | .RESERVED_PERCENT => "RESERVED_PERCENT"
  | .RESERVED_DOLLAR => "RESERVED_DOLLAR"
  | .OP_EQ => "OP_EQ"
  | .OP_LT => "OP_LT"
  | .OP_GT => "OP_GT"
  | .OP_LEQ => "OP_LEQ"
  | .OP_GEQ => "OP_GEQ"
  | .OP_NEQ => "OP_NEQ"
  | .OP_ASSIGN => "OP_ASSIGN"
  | .OP_CROSS => "OP_CROSS"
  | .OP_PLUS => "OP_PLUS"
  | .OP_MINUS => "OP_MINUS"
  | .OP_MULTIPLY => "OP_MULTIPLY"
  | .OP_DIVIDE => "OP_DIVIDE"
  | .OP_PLUS_ASSIGN => "OP_PLUS_ASSIGN"
  | .OP_MINUS_ASSIGN => "OP_MINUS_ASSIGN"
  | .OP_MULTIPLY_ASSIGN => "OP_MULTIPLY_ASSIGN"
  | .OP_DIVIDE_ASSIGN => "OP_DIVIDE_ASSIGN"
  | .OP_EXPONENT => "OP_EXPONENT"
  | .OP_CIRCLED_EQ => "OP_CIRCLED_EQ"
  | .OP_CIRCLED_LT => "OP_CIRCLED_LT"
  | .OP_CIRCLED_GT => "OP_CIRCLED_GT"
  | .OP_CIRCLED_LEQ => "OP_CIRCLED_LEQ"
  | .OP_CIRCLED_GEQ => "OP_CIRCLED_GEQ"
  | .OP_CIRCLED_NEQ => "OP_CIRCLED_NEQ"
  | .OP_CIRCLED_CROSS => "OP_CIRCLED_CROSS"
  | .OP_CIRCLED_PLUS => "OP_CIRCLED_PLUS"
  | .OP_CIRCLED_MINUS => "OP_CIRCLED_MINUS"
  | .OP_CIRCLED_MULTIPLY => "OP_CIRCLED_MULTIPLY"
  | .OP_CIRCLED_DIVIDE => "OP_CIRCLED_DIVIDE"
  | .OP_CIRCLED_DOT => "OP_CIRCLED_DOT"
  | .OP_BOXED_EQ => "OP_BOXED_EQ"
  | .OP_BOXED_LT => "OP_BOXED_LT"
  | .OP_BOXED_GT => "OP_BOXED_GT"
  | .OP_BOXED_LEQ => "OP_BOXED_LEQ"
  | .OP_BOXED_GEQ => "OP_BOXED_GEQ"
  | .OP_BOXED_NEQ => "OP_BOXED_NEQ"
  | .OP_BOXED_CROSS => "OP_BOXED_CROSS"
  | .OP_BOXED_PLUS => "OP_BOXED_PLUS"
  | .OP_BOXED_MINUS => "OP_BOXED_MINUS"
  | .OP_BOXED_MULTIPLY => "OP_BOXED_MULTIPLY"
  | .OP_BOXED_DIVIDE => "OP_BOXED_DIVIDE"
  | .OP_BOXED_DOT => "OP_BOXED_DOT"
  | .OP_PARENTHESES => "OP_PARENTHESES"
  | .OP_BRACKETS => "OP_BRACKETS"
  | .OP_BRACES => "OP_BRACES"

/-- The Python enum member value (`kind.value`), i.e. the canonical spelling. -/
def kindValue : TokenKind → Str
  | .WHITE_SPACE => "<WS>".toList
  | .END_OF_LINE => "<EOL>".toList
  | .IDENTIFIER => "<IDENTIFIER>".toList
  | .DUMMY_IDENTIFIER => "<DUMMY IDENTIFIER>".toList
  | .KW_AND => "and".toList
  | .KW_AS => "as".toList
  | .KW_ASSERT => "assert".toList
  | .KW_AXIOM => "axiom".toList
  | .KW_CASE => "case".toList
  | .KW_DIV => "div".toList
  | .KW_ELSE => "else".toList
  | .KW_EMIT => "emit".toList
  | .KW_ENUM => "enum".toList
  | .KW_EXTENDS => "extends".toList
  | .KW_FINALLY => "finally".toList
  | .KW_FN => "fn".toList
  | .KW_FORWARD => "forward".toList
  | .KW_FORWARDER => "forwarder".toList
  | .KW_FROM => "from".toList
  | .KW_GIVEN => "given".toList
  | .KW_IF => "if".toList
  | .KW_IMPORT => "import".toList
  | .KW_IN => "in".toList
  | .KW_INV => "inv".toList
  | .KW_INITIALLY => "initially".toList
  | .KW_LEMMA => "lemma".toList
  | .KW_LET => "let".toList
  | .KW_MOD => "mod".toList
  | .KW_NEW => "new".toList
  | .KW_NOT => "not".toList
  | .KW_OF => "of".toList
  | .KW_OP => "op".toList
  | .KW_OR => "or".toList
  | .KW_PROC => "proc".toList
  | .KW_PURE => "pure".toList
  | .KW_RETURN => "return".toList
  | .KW_SPAWN => "spawn".toList
  | .KW_SWITCH => "switch".toList
  | .KW_THEOREM => "theorem".toList
  | .KW_THEN => "then".toList
  | .KW_TYPE => "type".toList
  | .KW_VAR => "var".toList
  | .KW_VARIANT => "variant".toList
  | .KW_WHERE => "where".toList
  | .KW_WHILE => "while".toList
  | .KW_XOR => "xor".toList
  | .EOF => "<EOF>".toList
  | .ERR_IDENTIFIER => "ERROR <IDENTIFIER>".toList
  | .LEFT_PARENTHESIS => "(".toList
  | .RIGHT_PARENTHESIS => ")".toList
  | .LEFT_BRACKET => "[".toList
  | .RIGHT_BRACKET => "]".toList
  | .LEFT_BRACE => "\x7b".toList
  | .RIGHT_BRACE => "\x7d".toList
  | .COMMA => ",".toList
  | .COLON => ":".toList
  | .DOT => ".".toList
  | .DOTDOT => "..".toList
  | .ELLIPSIS => "...".toList
  | .RIGHT_ARROW => "->".toList
  | .RESERVED_SEMICOLON => ";".toList
  | .RESERVED_COMMERCIAL_AT => "@".toList
  | .RESERVED_EXCLAMATION_MARK => "!".toList
  | .RESERVED_AMPERSAND => "&".toList
  | .RESERVED_PERCENT => "%".toList
  | .RESERVED_DOLLAR => "$".toList
  | .OP_EQ => "=".toList
  | .OP_LT => "<".toList
  | .OP_GT => ">".toList
  | .OP_LEQ => "<=".toList
  | .OP_GEQ => ">=".toList
  | .OP_NEQ => "<>".toList
  | .OP_ASSIGN => ":=".toList
  | .OP_CROSS => "><".toList
  | .OP_PLUS => "+".toList
  | .OP_MINUS => "-".toList
  | .OP_MULTIPLY => "*".toList
  | .OP_DIVIDE => "/".toList
  | .OP_PLUS_ASSIGN => "+=".toList
  | .OP_MINUS_ASSIGN => "-=".toList
  | .OP_MULTIPLY_ASSIGN => "*=".toList
  | .OP_DIVIDE_ASSIGN => "/=".toList
  | .OP_EXPONENT => "^".toList
  | .OP_CIRCLED_EQ => "(=)".toList
  | .OP_CIRCLED_LT => "(<)".toList
  | .OP_CIRCLED_GT => "(>)".toList
  | .OP_CIRCLED_LEQ => "(<=)".toList
  | .OP_CIRCLED_GEQ => "(>=)".toList
  | .OP_CIRCLED_NEQ => "(<>)".toList
  | .OP_CIRCLED_CROSS => "(><)".toList
  | .OP_CIRCLED_PLUS => "(+)".toList
  | .OP_CIRCLED_MINUS => "(-)".toList
  | .OP_CIRCLED_MULTIPLY => "(*)".toList
  | .OP_CIRCLED_DIVIDE => "(/)".toList
  | .OP_CIRCLED_DOT => "(.)".toList
  | .OP_BOXED_EQ => "[=]".toList
  | .OP_BOXED_LT => "[<]".toList
  | .OP_BOXED_GT => "[>]".toList
  | .OP_BOXED_LEQ => "[<=]".toList
  | .OP_BOXED_GEQ => "[>=]".toList
  | .OP_BOXED_NEQ => "[<>]".toList
  | .OP_BOXED_CROSS => "[><]".toList
  | .OP_BOXED_PLUS => "[+]".toList
  | .OP_BOXED_MINUS => "[-]".toList
  | .OP_BOXED_MULTIPLY => "[*]".toList
  | .OP_BOXED_DIVIDE => "[/]".toList
  | .OP_BOXED_DOT => "[.]".toList
  | .OP_PARENTHESES => "()".toList
  | .OP_BRACKETS => "[]".toList
  | .OP_BRACES => "\x7b\x7d".toList

/-- Enum members before the keywords, in declaration order. -/
def kindsA : List TokenKind :=
  [.WHITE_SPACE, .END_OF_LINE, .IDENTIFIER, .DUMMY_IDENTIFIER]

/-- The keyword enum members, in declaration order. -/
def kindsKw1 : List TokenKind :=
  [.KW_AND, .KW_AS, .KW_ASSERT, .KW_AXIOM, .KW_CASE, .KW_DIV, .KW_ELSE,
   .KW_EMIT, .KW_ENUM, .KW_EXTENDS, .KW_FINALLY, .KW_FN, .KW_FORWARD,
   .KW_FORWARDER, .KW_FROM, .KW_GIVEN]

/-- The keyword enum members, continued. -/
def kindsKw2 : List TokenKind :=
  [.KW_IF, .KW_IMPORT, .KW_IN, .KW_INV,
   .KW_INITIALLY, .KW_LEMMA, .KW_LET, .KW_MOD, .KW_NEW, .KW_NOT, .KW_OF,
   .KW_OP, .KW_OR, .KW_PROC, .KW_PURE, .KW_RETURN]

/-- The keyword enum members, continued. -/
def kindsKw3 : List TokenKind :=
  [.KW_SPAWN, .KW_SWITCH,
   .KW_THEOREM, .KW_THEN, .KW_TYPE, .KW_VAR, .KW_VARIANT, .KW_WHERE,
   .KW_WHILE, .KW_XOR]

/-- Enum members between the keywords and the operators. -/
def kindsB : List TokenKind :=
  [.EOF, .ERR_IDENTIFIER,
   .LEFT_PARENTHESIS, .RIGHT_PARENTHESIS, .LEFT_BRACKET, .RIGHT_BRACKET,
   .LEFT_BRACE, .RIGHT_BRACE, .COMMA, .COLON, .DOT, .DOTDOT, .ELLIPSIS,
   .RIGHT_ARROW, .RESERVED_SEMICOLON, .RESERVED_COMMERCIAL_AT]

/-- Reserved-symbol and plain-operator enum members. -/
def kindsC : List TokenKind :=
  [.RESERVED_EXCLAMATION_MARK, .RESERVED_AMPERSAND, .RESERVED_PERCENT,
   .RESERVED_DOLLAR,
   .OP_EQ, .OP_LT, .OP_GT, .OP_LEQ, .OP_GEQ, .OP_NEQ, .OP_ASSIGN, .OP_CROSS,
   .OP_PLUS, .OP_MINUS, .OP_MULTIPLY, .OP_DIVIDE]

/-- Compound-assignment and circled-operator enum members. -/
def kindsD : List TokenKind :=
  [.OP_PLUS_ASSIGN,
   .OP_MINUS_ASSIGN, .OP_MULTIPLY_ASSIGN, .OP_DIVIDE_ASSIGN, .OP_EXPONENT,
   .OP_CIRCLED_EQ, .OP_CIRCLED_LT, .OP_CIRCLED_GT, .OP_CIRCLED_LEQ,
   .OP_CIRCLED_GEQ, .OP_CIRCLED_NEQ, .OP_CIRCLED_CROSS, .OP_CIRCLED_PLUS,
   .OP_CIRCLED_MINUS, .OP_CIRCLED_MULTIPLY, .OP_CIRCLED_DIVIDE]

/-- Boxed-operator and bracket-pair enum members. -/
def kindsE : List TokenKind :=
  [.OP_CIRCLED_DOT,
   .OP_BOXED_EQ, .OP_BOXED_LT, .OP_BOXED_GT, .OP_BOXED_LEQ, .OP_BOXED_GEQ,
   .OP_BOXED_NEQ, .OP_BOXED_CROSS, .OP_BOXED_PLUS, .OP_BOXED_MINUS,
   .OP_BOXED_MULTIPLY, .OP_BOXED_DIVIDE, .OP_BOXED_DOT,
   .OP_PARENTHESES, .OP_BRACKETS, .OP_BRACES]

/-- All enum members, in declaration order (iteration order of `TokenKind`). -/
def allKinds : List TokenKind :=
  kindsA ++ kindsKw1 ++ kindsKw2 ++ kindsKw3 ++ kindsB ++ kindsC ++ kindsD ++ kindsE

/-- Modelled from Python's `unicodedata.category` (the lexer's only external
dependency, `classes.py` line 7): the general category of a character, as a
two-letter string.  The model is faithful on all ASCII characters and on the
specific non-ASCII characters this development evaluates (the connector
punctuation characters U+203F and U+2040, and the byte-order mark U+FEFF);
every other character is mapped to the unassigned category `Cn`, which none
of the classifier predicates below accept. -/
def unicodeCategory (c : Char) : String :=
  if ('a' ≤ c ∧ c ≤ 'z') then "Ll"
  else if ('A' ≤ c ∧ c ≤ 'Z') then "Lu"
  else if ('0' ≤ c ∧ c ≤ '9') then "Nd"
  else if c = '_' ∨ c = '\u203F' ∨ c = '\u2040' then "Pc"
  else if c = ' ' then "Zs"
  else if c.toNat < 32 ∨ c.toNat = 127 then "Cc"
  else if c = '\uFEFF' then "Cf"
  else if c.toNat < 128 then "Po"
  else "Cn"

/-- Modelled from Python's `str.isspace` for a single character: true for the
ASCII whitespace and separator control characters and the common Unicode
space separators.  Faithful on all ASCII characters; in particular it is
false on `'\x00'`, `'\x1A'`, `'#'` and `'\uFEFF'`. -/
def pyIsSpace (c : Char) : Bool :=
  c = ' ' || c = '\t' || c = '\n' || c = '\r' || c = '\x0b' || c = '\x0c' ||
  c = '\x1c' || c = '\x1d' || c = '\x1e' || c = '\x1f' || c = '\x85' ||
  c = ' ' || c = ' ' || c = ' '

/-- `classes.is_eof`: the NUL sentinel or the legacy SUB control character. -/
def is_eof (c : Char) : Bool :=
  c = '\x00' || c = '\x1A'

/-- `classes.is_eol`: carriage return or line feed. -/
def is_eol (c : Char) : Bool :=
  c = '\r' || c = '\n'

/-- `classes.is_identifier_start`. -/
def is_identifier_start (c : Char) : Bool :=
  ["Ll", "Lm", "Lo", "Lt", "Lu", "Nl"].contains (unicodeCategory c)

/-- `classes.is_identifier_continue`. -/
def is_identifier_continue (c : Char) : Bool :=
  ["Ll", "Lm", "Lo", "Lt", "Lu", "Nd", "Nl", "Mn", "Mc"].contains (unicodeCategory c)

/-- `classes.is_identifier_connector`. -/
def is_identifier_connector (c : Char) : Bool :=
  unicodeCategory c = "Pc"

/-- The closed character set of `classes.is_symbolic`. -/
def symbolicChars : Str :=
  "!$%&()*+,-./:;<=>?@[\\]^\x7b|\x7d~".toList

/-- `classes.is_symbolic`. -/
def is_symbolic (c : Char) : Bool :=
  decide (c ∈ symbolicChars)

/-- Modelled from Python's `str.isalpha` for a single character; the lexer
applies it only to the ASCII spellings of `TokenKind`, on which the ASCII
test is faithful. -/
def pyIsAlpha (c : Char) : Bool :=
  ('a' ≤ c && c ≤ 'z') || ('A' ≤ c && c ≤ 'Z')

/-- `states.KEYWORDS` is a generator expression over the enum; this is the
full sequence of items it can yield, in order.  A value of type `List Str`
is used as the generator's state: the items not yet consumed. -/
def KEYWORDS : List Str :=
  (allKinds.filter (fun k => "KW_".toList.isPrefixOf (kindName k).toList)).map kindValue

/-- `states.SYMBOLS`: spelling-to-kind pairs for every enum member whose
spelling contains no alphabetic character, in enum order (the Python dict
preserves insertion order; spellings are unique, so no key is overwritten). -/
def SYMBOLS : List (Str × TokenKind) :=
  (allKinds.filter (fun k => !((kindValue k).any pyIsAlpha))).map
    (fun k => (kindValue k, k))

/-- Stable insertion into a length-descending list: the new element goes in
front of the first strictly shorter element, behind every element of length
greater than or equal to its own that was inserted after it. -/
def insertByLen (x : Str) : List Str → List Str
  | [] => [x]
  | y :: ys => if y.length ≤ x.length then x :: y :: ys else y :: insertByLen x ys

/-- `states.SYMBOL_LIST`: `sorted(SYMBOLS.keys(), key=len, reverse=True)`, a
stable sort of the symbol spellings by descending length (Python's `sorted`
is stable, and `reverse=True` keeps the original order of equal keys).
Folding `insertByLen` from the right realises exactly that ordering. -/
def SYMBOL_LIST : List Str :=
  (SYMBOLS.map Prod.fst).foldr insertByLen []

/-- Python `term in KEYWORDS` where `KEYWORDS` is a generator: items are
pulled until one equals `term` (the generator then rests just after it) or
the generator is exhausted.  Returns the test result and the generator's
remaining items. -/
def genMember (term : Str) : List Str → Bool × List Str
  | [] => (false, [])
  | k :: rest => if k = term then (true, rest) else genMember term rest

/-- `TokenKind['KW_' + term.upper()]`: name-indexed lookup into the enum.
The default is never reached when `term` was just found among the keyword
spellings (Python would raise `KeyError` there). -/
def kwKindLookup (term : Str) : TokenKind :=
  (allKinds.find? (fun k =>
      kindName k = "KW_" ++ String.mk (term.map Char.toUpper))).getD .IDENTIFIER

/-- `states.check_keywords`, with the module-level generator state made
explicit: classify a completed identifier spelling, returning the kind and
the generator items that remain after the membership test. -/
def check_keywords (kw : List Str) (term : Str) : TokenKind × List Str :=
  match genMember term kw with
  | (true, kw2) => (kwKindLookup term, kw2)
  | (false, kw2) =>
    if term.head? = some '_' then (TokenKind.DUMMY_IDENTIFIER, kw2)
    else (TokenKind.IDENTIFIER, kw2)

/-- `token.Token` (the `extra` field is always empty in the source and is
omitted). -/
structure Token where
  kind : TokenKind
  img : Str
  line : Int
  column : Int
  deriving DecidableEq, Repr

/-- `token.TokenizerContext`. -/
structure TokenizerContext where
  is_at_bof : Bool := true
  current_line : Int := 1
  current_column : Int := 0
  more : Str := []
  more_line : Int := -1
  more_column : Int := -1
  deriving DecidableEq, Repr

/-- `TokenizerContext.add_more`. -/
def add_more (ctx : TokenizerContext) (c : Char) : TokenizerContext :=
  if ctx.more.isEmpty then
    { ctx with more_line := ctx.current_line, more_column := ctx.current_column,
               more := ctx.more ++ [c] }
  else
    { ctx with more := ctx.more ++ [c] }

/-- `TokenizerContext.terminate_more`. -/
def terminate_more (ctx : TokenizerContext) (kind : TokenKind) :
    Token × TokenizerContext :=
  (⟨kind, ctx.more, ctx.more_line, ctx.more_column⟩,
   { ctx with more := [], more_line := -1, more_column := -1 })

/-- `TokenizerContext.next_line`. -/
def next_line (ctx : TokenizerContext) : TokenizerContext :=
  { ctx with current_line := ctx.current_line + 1, current_column := 0 }

/-- `token.TokenizerError`: message plus the position captured from the
context at construction time (the mutable `state` back-reference is only
used for diagnostics text and is not modelled). -/
structure TokenizerError where
  message : String
  line : Int
  column : Int
  deriving DecidableEq, Repr

/-- The lexer states of `states.py`; the Python code passes the transition
functions themselves around, here named by this tag. -/
inductive LexState where
  | start
  | whitespace
  | comment
  | eol
  | identifier
  | identifierConnector
  | errIdentifier
  | symbolic
  deriving DecidableEq, Repr

/-- `token.EXTRA_TOKENS`: the kinds the driver filters out. -/
def EXTRA_TOKENS : List TokenKind := [.WHITE_SPACE]

/-- Result of one transition: emitted tokens, the next state, and the
updated context and keyword-generator state (`token.TokenizerResult`,
plus the two pieces of state the Python code mutates in place). -/
abbrev StepResult := List Token × LexState × TokenizerContext × List Str

/-- The error used when the fuel of the embedded mutual recursion runs
out; the driver always supplies enough fuel, so it is never produced. -/
def fuelError : TokenizerError := ⟨"fuel exhausted", 0, 0⟩

/-- `states.pop_symbolic`: peel the first (hence longest) entry of
`SYMBOL_LIST` that is a prefix of the buffered run.  The dict access
`SYMBOLS[symbol]` cannot miss, since the matched spelling is a key. -/
def pop_symbolic (ctx : TokenizerContext) :
    Except TokenizerError (Token × TokenizerContext) :=
  match SYMBOL_LIST.find? (fun sym => sym.isPrefixOf ctx.more) with
  | some sym =>
      .ok (⟨(SYMBOLS.lookup sym).getD .IDENTIFIER, sym, ctx.more_line, ctx.more_column⟩,
           { ctx with more := ctx.more.drop sym.length,
                      more_column := ctx.more_column + sym.length })
  | none => .error ⟨"Unexpected character", ctx.current_line, ctx.current_column⟩

/-- The `while context.more:` loop of `states.tok_symbolic`, popping
symbols until the buffer is empty.  Each successful pop removes at least
one character, so `ctx.more.length` is always enough fuel. -/
def popAll (fuel : Nat) (ctx : TokenizerContext) :
    Except TokenizerError (List Token × TokenizerContext) :=
  match fuel with
  | 0 => if ctx.more.isEmpty then .ok ([], ctx) else .error fuelError
  | fuel + 1 =>
    if ctx.more.isEmpty then .ok ([], ctx)
    else
      match pop_symbolic ctx with
      | .error e => .error e
      | .ok (t, ctx1) =>
        match popAll fuel ctx1 with
        | .error e => .error e
        | .ok (ts, ctx2) => .ok (t :: ts, ctx2)

/-- Prepend already-produced tokens to a forwarded transition's result:
the `[term_token] + next_tokens` composition of
`TokenizerContext.terminate_and_forward` and of `states.tok_symbolic`. -/
def fwdTokens (pre : List Token) (r : Except TokenizerError StepResult) :
    Except TokenizerError StepResult :=
  match r with
  | .ok (ts, s2, ctx2, kw2) => .ok (pre ++ ts, s2, ctx2, kw2)
  | .error e => .error e

mutual

/-- `states.tok_start`. -/
def tok_start : Nat → Char → TokenizerContext → List Str →
    Except TokenizerError StepResult
  | 0, _, _, _ => .error fuelError
  | fuel + 1, c, ctx, kw =>
    if is_identifier_start c || c = '_' then tok_identifier fuel c ctx kw
    else if is_symbolic c then tok_symbolic fuel c ctx kw
    else if is_eol c then tok_eol fuel c ctx kw
    else if pyIsSpace c then tok_whitespace fuel c ctx kw
    else if c = '\uFEFF' && ctx.is_at_bof then .ok ([], .start, ctx, kw)
    else if is_eof c then
      .ok ([⟨.EOF, [c], ctx.current_line, ctx.current_column⟩], .start, ctx, kw)
    else .error ⟨"Unexpected character", ctx.current_line, ctx.current_column⟩

/-- `states.tok_whitespace`. -/
def tok_whitespace : Nat → Char → TokenizerContext → List Str →
    Except TokenizerError StepResult
  | 0, _, _, _ => .error fuelError
  | fuel + 1, c, ctx, kw =>
    if is_eol c then
      let p := terminate_more ctx .WHITE_SPACE
      fwdTokens [p.1] (tok_eol fuel c p.2 kw)
    else if pyIsSpace c then .ok ([], .whitespace, add_more ctx c, kw)
    else if c = '#' then tok_comment fuel c ctx kw
    else
      let p := terminate_more ctx .WHITE_SPACE
      fwdTokens [p.1] (tok_start fuel c p.2 kw)

/-- `states.tok_comment`. -/
def tok_comment : Nat → Char → TokenizerContext → List Str →
    Except TokenizerError StepResult
  | 0, _, _, _ => .error fuelError
  | fuel + 1, c, ctx, kw =>
    if is_eol c then
      let p := terminate_more ctx .WHITE_SPACE
      fwdTokens [p.1] (tok_start fuel c p.2 kw)
    else .ok ([], .comment, add_more ctx c, kw)

/-- `states.tok_eol`. -/
def tok_eol : Nat → Char → TokenizerContext → List Str →
    Except TokenizerError StepResult
  | 0, _, _, _ => .error fuelError
  | fuel + 1, c, ctx, kw =>
    if c = '\n' then .ok ([], .eol, add_more ctx c, kw)
    else if c = '\r' then
      let p := terminate_more (next_line (add_more ctx c)) .END_OF_LINE
      .ok ([p.1], .start, p.2, kw)
    else
      let p := terminate_more (next_line ctx) .END_OF_LINE
      fwdTokens [p.1] (tok_start fuel c p.2 kw)

/-- `states.tok_identifier`. -/
def tok_identifier : Nat → Char → TokenizerContext → List Str →
    Except TokenizerError StepResult
  | 0, _, _, _ => .error fuelError
  | fuel + 1, c, ctx, kw =>
    if is_identifier_continue c then .ok ([], .identifier, add_more ctx c, kw)
    else if is_identifier_connector c then
      .ok ([], .identifierConnector, add_more ctx c, kw)
    else
      let q := check_keywords kw ctx.more
      let p := terminate_more ctx q.1
      fwdTokens [p.1] (tok_start fuel c p.2 q.2)

/-- `states.tok_identifier_connector`. -/
def tok_identifier_connector : Nat → Char → TokenizerContext → List Str →
    Except TokenizerError StepResult
  | 0, _, _, _ => .error fuelError
  | fuel + 1, c, ctx, kw =>
    if is_identifier_continue c then .ok ([], .identifier, add_more ctx c, kw)
    else if is_identifier_connector c then
      .ok ([], .errIdentifier, add_more ctx c, kw)
    else if ctx.more = ['_'] then
      let p := terminate_more ctx .DUMMY_IDENTIFIER
      fwdTokens [p.1] (tok_start fuel c p.2 kw)
    else
      let p := terminate_more ctx .ERR_IDENTIFIER
      fwdTokens [p.1] (tok_start fuel c p.2 kw)

/-- `states.err_identifier`. -/
def err_identifier : Nat → Char → TokenizerContext → List Str →
    Except TokenizerError StepResult
  | 0, _, _, _ => .error fuelError
  | fuel + 1, c, ctx, kw =>
    if is_identifier_continue c || is_identifier_connector c then
      .ok ([], .errIdentifier, add_more ctx c, kw)
    else
      let p := terminate_more ctx .ERR_IDENTIFIER
      fwdTokens [p.1] (tok_start fuel c p.2 kw)

/-- `states.tok_symbolic`. -/
def tok_symbolic : Nat → Char → TokenizerContext → List Str →
    Except TokenizerError StepResult
  | 0, _, _, _ => .error fuelError
  | fuel + 1, c, ctx, kw =>
    if is_symbolic c then .ok ([], .symbolic, add_more ctx c, kw)
    else
      match popAll ctx.more.length ctx with
      | .error e => .error e
      | .ok (ts, ctx1) => fwdTokens ts (tok_start fuel c ctx1 kw)

end


/-- Dispatch a character to the transition function of the current state
with the given fuel; the Python code calls the state's function directly. -/
def stepState (fuel : Nat) (s : LexState) (c : Char) (ctx : TokenizerContext)
    (kw : List Str) : Except TokenizerError StepResult :=
  match s with
  | .start => tok_start fuel c ctx kw
  | .whitespace => tok_whitespace fuel c ctx kw
  | .comment => tok_comment fuel c ctx kw
  | .eol => tok_eol fuel c ctx kw
  | .identifier => tok_identifier fuel c ctx kw
  | .identifierConnector => tok_identifier_connector fuel c ctx kw
  | .errIdentifier => err_identifier fuel c ctx kw
  | .symbolic => tok_symbolic fuel c ctx kw

/-- Fuel for one driver step.  Dynamic chains of state-function calls have
depth at most three (for example comment to start to eol), so eight is
ample; no reachable run exhausts it. -/
def lexFuel : Nat := 8

/-- The driver loop of `__init__.tokenize`, producing every token the
states emit (including `WHITE_SPACE` ones): read the next character (the
NUL sentinel once the input is exhausted), run the current state, clear
`is_at_bof`, and stop after an end-of-stream character — with the
"Unexpected end of file" error when that character completed no token.
The exhausted-input case is written as its own pattern: there the
character is the sentinel, for which the end-of-stream test is always
true, and clearing `is_at_bof` cannot affect the error's position. -/
def runTokens : List Char → LexState → TokenizerContext → List Str →
    Except TokenizerError (List Token × List Str)
  | [], s, ctx, kw =>
    match stepState lexFuel s '\x00' ctx kw with
    | .error e => .error e
    | .ok (ts, _s1, ctx1, kw1) =>
      if ts.isEmpty then
        .error ⟨"Unexpected end of file", ctx1.current_line, ctx1.current_column⟩
      else .ok (ts, kw1)
  | c :: rest, s, ctx, kw =>
    match stepState lexFuel s c ctx kw with
    | .error e => .error e
    | .ok (ts, s1, ctx1, kw1) =>
      if is_eof c then
        if ts.isEmpty then
          .error ⟨"Unexpected end of file", ctx1.current_line, ctx1.current_column⟩
        else .ok (ts, kw1)
      else
        match runTokens rest s1 { ctx1 with is_at_bof := false } kw1 with
        | .error e => .error e
        | .ok (ts2, kw2) => .ok (ts ++ ts2, kw2)

/-- A whole scan at the state-machine level: all tokens produced from the
start state and a fresh context, for a given keyword-generator state. -/
def runAll (kw : List Str) (input : List Char) :
    Except TokenizerError (List Token × List Str) :=
  runTokens input .start {} kw

/-- `__init__.tokenize` as observed by the consumer: `runAll` with the
`EXTRA_TOKENS` kinds (whitespace) filtered out of the yielded sequence. -/
def tokenize (kw : List Str) (input : List Char) :
    Except TokenizerError (List Token × List Str) :=
  match runAll kw input with
  | .error e => .error e
  | .ok (ts, kw1) => .ok (ts.filter (fun t => !EXTRA_TOKENS.contains t.kind), kw1)

/-- Concatenated images of a token sequence. -/
def imgs (ts : List Token) : Str :=
  (ts.map Token.img).flatten

/-- The kinds of a token sequence, for compact statements. -/
def kindsOf (r : Except TokenizerError (List Token × List Str)) :
    Except TokenizerError (List TokenKind) :=
  match r with
  | .error e => .error e
  | .ok (ts, _) => .ok (ts.map Token.kind)

/-- Whether a scan result is a success. -/
def isOkE {A : Type} (r : Except TokenizerError A) : Bool :=
  match r with
  | .ok _ => true
  | .error _ => false

/-- The per-step invariant: a successful transition's tokens and remaining
buffer partition the old buffer plus the consumed character; a transition
into the start state leaves an empty buffer; the beginning-of-stream flag
is untouched; and an end-of-stream character either produces no token or
ends in the start state with an empty buffer. -/
def StepConcl (c : Char) (ctx : TokenizerContext) (ts : List Token)
    (s1 : LexState) (ctx1 : TokenizerContext) : Prop :=
  imgs ts ++ ctx1.more = ctx.more ++ [c]
  ∧ (s1 = .start → ctx1.more = [])
  ∧ ctx1.is_at_bof = ctx.is_at_bof
  ∧ (is_eof c = true → ts = [] ∨ (s1 = .start ∧ ctx1.more = []))

/-- The per-step invariant holds for every state at a given fuel. -/
def StepIH (fuel : Nat) : Prop :=
  ∀ (s : LexState) (c : Char) (ctx : TokenizerContext) (kw : List Str)
    (ts : List Token) (s1 : LexState) (ctx1 : TokenizerContext) (kw1 : List Str),
    stepState fuel s c ctx kw = .ok (ts, s1, ctx1, kw1) →
    (c = '\uFEFF' → ctx.is_at_bof = false) →
    (s = .start → ctx.more = []) →
    StepConcl c ctx ts s1 ctx1

theorem fwdTokens_ok {pre : List Token} {r : Except TokenizerError StepResult}
    {ts : List Token} {s1 : LexState} {ctx1 : TokenizerContext} {kw1 : List Str}
    (h : fwdTokens pre r = .ok (ts, s1, ctx1, kw1)) :
    ∃ ts2, r = .ok (ts2, s1, ctx1, kw1) ∧ ts = pre ++ ts2 := by
  cases r with
  | error e => simp [fwdTokens] at h
  | ok p =>
    obtain ⟨ts2, s2, ctx2, kw2⟩ := p
    simp only [fwdTokens, Except.ok.injEq, Prod.mk.injEq] at h
    obtain ⟨h1, h2, h3, h4⟩ := h
    exact ⟨ts2, by rw [h2, h3, h4], h1.symm⟩

theorem find_longest_of_sorted {m x : Str} :
    ∀ (l : List Str), l.Pairwise (fun a b => b.length ≤ a.length) →
    l.find? (fun s => s.isPrefixOf m) = some x →
    ∀ s ∈ l, s.isPrefixOf m = true → s.length ≤ x.length := by
  intro l
  induction l with
  | nil => intro _ h; simp at h
  | cons a l ih =>
    intro hp hf s hs hpre
    rcases List.pairwise_cons.mp hp with ⟨ha, hp2⟩
    by_cases hpa : a.isPrefixOf m = true
    · simp only [List.find?, hpa] at hf
      injection hf with hax
      subst hax
      rcases List.mem_cons.mp hs with rfl | hs
      · exact le_refl _
      · exact ha s hs
    · rw [Bool.not_eq_true] at hpa
      simp only [List.find?, hpa] at hf
      rcases List.mem_cons.mp hs with rfl | hs
      · simp [hpa] at hpre
      · exact ih hp2 hf s hs hpre

theorem symbolList_sorted :
    SYMBOL_LIST.Pairwise (fun a b => b.length ≤ a.length) := by decide

theorem symbolList_ne_nil : ∀ x ∈ SYMBOL_LIST, x ≠ [] := by decide

theorem pop_symbolic_ok {ctx : TokenizerContext} {t : Token} {ctx1 : TokenizerContext}
    (h : pop_symbolic ctx = .ok (t, ctx1)) :
    t.img ++ ctx1.more = ctx.more ∧ t.img ∈ SYMBOL_LIST ∧
    t.img.isPrefixOf ctx.more = true ∧ ctx1.is_at_bof = ctx.is_at_bof ∧
    (ctx.more ≠ [] → ctx1.more.length < ctx.more.length) ∧
    SYMBOL_LIST.find? (fun sym => sym.isPrefixOf ctx.more) = some t.img := by
  unfold pop_symbolic at h
  cases hf : SYMBOL_LIST.find? (fun sym => sym.isPrefixOf ctx.more) with
  | none => rw [hf] at h; cases h
  | some sym =>
    rw [hf] at h
    simp only [Except.ok.injEq, Prod.mk.injEq] at h
    obtain ⟨ht, hc⟩ := h
    have hpre : sym.isPrefixOf ctx.more = true := by
      have := List.find?_some hf
      simpa using this
    have hmem : sym ∈ SYMBOL_LIST := List.mem_of_find?_eq_some hf
    obtain ⟨rest, hrest⟩ := List.isPrefixOf_iff_prefix.mp hpre
    subst ht
    subst hc
    refine ⟨?_, by simpa using hmem, by simpa using hpre, rfl, ?_, rfl⟩
    · show sym ++ (ctx.more.drop sym.length) = ctx.more
      rw [← hrest, List.drop_left]
    · intro hne
      show (ctx.more.drop sym.length).length < ctx.more.length
      have hsymne : sym ≠ [] := symbolList_ne_nil sym hmem
      have hlen : 0 < sym.length := List.length_pos.mpr hsymne
      have hle : sym.length ≤ ctx.more.length := by
        rw [← hrest]; simp
      simp only [List.length_drop]
      omega

theorem popAll_ok : ∀ (n : Nat) (ctx : TokenizerContext) (ts : List Token)
    (ctx1 : TokenizerContext),
    popAll n ctx = .ok (ts, ctx1) →
    imgs ts ++ ctx1.more = ctx.more ∧ ctx1.more = [] ∧
    ctx1.is_at_bof = ctx.is_at_bof := by
  intro n
  induction n with
  | zero =>
    intro ctx ts ctx1 h
    unfold popAll at h
    by_cases he : ctx.more.isEmpty
    · rw [if_pos he] at h
      simp only [Except.ok.injEq, Prod.mk.injEq] at h
      obtain ⟨rfl, rfl⟩ := h
      refine ⟨?_, ?_, rfl⟩ <;> simp_all [imgs, List.isEmpty_iff]
    · rw [if_neg he] at h; cases h
  | succ n ih =>
    intro ctx ts ctx1 h
    unfold popAll at h
    by_cases he : ctx.more.isEmpty
    · rw [if_pos he] at h
      simp only [Except.ok.injEq, Prod.mk.injEq] at h
      obtain ⟨rfl, rfl⟩ := h
      refine ⟨?_, ?_, rfl⟩ <;> simp_all [imgs, List.isEmpty_iff]
    · rw [if_neg he] at h
      split at h
      next e hp => cases h
      next t ctxa hp =>
        split at h
        next e2 hq => cases h
        next ts2 ctxb hq =>
          simp only [Except.ok.injEq, Prod.mk.injEq] at h
          obtain ⟨rfl, rfl⟩ := h
          obtain ⟨himg, hmem, hpre, hbof, hlt, hfind⟩ := pop_symbolic_ok hp
          obtain ⟨himg2, hemp2, hbof2⟩ := ih ctxa ts2 _ hq
          refine ⟨?_, hemp2, hbof2.trans hbof⟩
          have hcons : imgs (t :: ts2) = t.img ++ imgs ts2 := by simp [imgs]
          rw [hcons, List.append_assoc, himg2, himg]

theorem tok_start_eof_step (fuel : Nat) (c : Char) (ctx : TokenizerContext)
    (kw : List Str) (h : is_eof c = true) :
    tok_start (fuel + 1) c ctx kw =
      .ok ([⟨.EOF, [c], ctx.current_line, ctx.current_column⟩], .start, ctx, kw) := by
  have hc : c = '\x00' ∨ c = '\x1A' := by
    simpa [is_eof] using h
  rcases hc with rfl | rfl <;> rfl

theorem add_more_more (ctx : TokenizerContext) (c : Char) :
    (add_more ctx c).more = ctx.more ++ [c] := by
  unfold add_more; split <;> rfl

theorem add_more_bof (ctx : TokenizerContext) (c : Char) :
    (add_more ctx c).is_at_bof = ctx.is_at_bof := by
  unfold add_more; split <;> rfl

theorem imgs_cons (t : Token) (ts : List Token) :
    imgs (t :: ts) = t.img ++ imgs ts := by simp [imgs]

theorem imgs_append (a b : List Token) :
    imgs (a ++ b) = imgs a ++ imgs b := by simp [imgs]

theorem buffer_concl {c : Char} {ctx : TokenizerContext} {st : LexState}
    (hst : st ≠ .start) : StepConcl c ctx [] st (add_more ctx c) := by
  refine ⟨by simp [imgs, add_more_more], fun hh => absurd hh hst, add_more_bof ctx c,
    fun _ => Or.inl rfl⟩

theorem fwd_start_aux (fuel : Nat) (c : Char) (pre : List Token)
    (ctxA : TokenizerContext) (kwA : List Str) {ts : List Token} {s1 : LexState}
    {ctx1 : TokenizerContext} {kw1 : List Str}
    (hmoreA : ctxA.more = [])
    (h : fwdTokens pre (tok_start fuel c ctxA kwA) = .ok (ts, s1, ctx1, kw1))
    (ih : StepIH fuel)
    (hbomA : c = '\uFEFF' → ctxA.is_at_bof = false) :
    imgs ts ++ ctx1.more = imgs pre ++ [c]
    ∧ (s1 = .start → ctx1.more = [])
    ∧ ctx1.is_at_bof = ctxA.is_at_bof
    ∧ (is_eof c = true → s1 = .start ∧ ctx1.more = []) := by
  obtain ⟨ts2, hinner, rfl⟩ := fwdTokens_ok h
  have hstep : stepState fuel .start c ctxA kwA = .ok (ts2, s1, ctx1, kw1) := hinner
  obtain ⟨g1, g2, g3, _⟩ := ih .start c ctxA kwA ts2 s1 ctx1 kw1 hstep hbomA (fun _ => hmoreA)
  refine ⟨?_, g2, g3, ?_⟩
  · rw [imgs_append, List.append_assoc, g1, hmoreA]
    simp
  · intro hcf
    cases fuel with
    | zero =>
      rw [show tok_start 0 c ctxA kwA = .error fuelError from rfl] at hinner
      cases hinner
    | succ f =>
      rw [tok_start_eof_step f c ctxA kwA hcf] at hinner
      simp only [Except.ok.injEq, Prod.mk.injEq] at hinner
      obtain ⟨-, hs, hc1, -⟩ := hinner
      exact ⟨hs.symm, by rw [← hc1, hmoreA]⟩

theorem stepState_spec : ∀ fuel : Nat, StepIH fuel := by
  intro fuel
  induction fuel with
  | zero =>
    intro s c ctx kw ts s1 ctx1 kw1 h _ _
    cases s <;> exact absurd h (by simp [stepState, tok_start, tok_whitespace,
      tok_comment, tok_eol, tok_identifier, tok_identifier_connector,
      err_identifier, tok_symbolic])
  | succ fuel ih =>
    intro s c ctx kw ts s1 ctx1 kw1 h hbom hstart
    cases s
    case start =>
      have hmore : ctx.more = [] := hstart rfl
      simp only [stepState, tok_start] at h
      split_ifs at h with h1 h2 h3 h4 h5 h6
      · exact ih .identifier c ctx kw ts s1 ctx1 kw1 h hbom
          (fun hh => absurd hh (by decide))
      · exact ih .symbolic c ctx kw ts s1 ctx1 kw1 h hbom
          (fun hh => absurd hh (by decide))
      · exact ih .eol c ctx kw ts s1 ctx1 kw1 h hbom
          (fun hh => absurd hh (by decide))
      · exact ih .whitespace c ctx kw ts s1 ctx1 kw1 h hbom
          (fun hh => absurd hh (by decide))
      · simp only [Bool.and_eq_true, decide_eq_true_eq] at h5
        exact absurd h5.2 (by rw [hbom h5.1]; simp)
      · simp only [Except.ok.injEq, Prod.mk.injEq] at h
        obtain ⟨rfl, rfl, rfl, rfl⟩ := h
        exact ⟨by simp [imgs, hmore], fun _ => hmore, rfl,
          fun _ => Or.inr ⟨rfl, hmore⟩⟩
    case whitespace =>
      simp only [stepState, tok_whitespace] at h
      split_ifs at h with h1 h2 h3
      · obtain ⟨ts2, hinner, rfl⟩ := fwdTokens_ok h
        have hstep : stepState fuel .eol c (terminate_more ctx .WHITE_SPACE).2 kw =
            .ok (ts2, s1, ctx1, kw1) := hinner
        obtain ⟨g1, g2, g3, g4⟩ := ih .eol c _ kw ts2 s1 ctx1 kw1 hstep hbom
          (fun hh => absurd hh (by decide))
        refine ⟨?_, g2, g3, ?_⟩
        · rw [imgs_append, List.append_assoc, g1]
          show imgs [(terminate_more ctx .WHITE_SPACE).1] ++ ([] ++ [c]) = ctx.more ++ [c]
          simp [imgs, terminate_more]
        · intro hcf
          exfalso
          have : c = '\r' ∨ c = '\n' := by simpa [is_eol] using h1
          rcases this with rfl | rfl <;> simp [is_eof] at hcf
      · simp only [Except.ok.injEq, Prod.mk.injEq] at h
        obtain ⟨rfl, rfl, rfl, rfl⟩ := h
        exact buffer_concl (by decide)
      · exact ih .comment c ctx kw ts s1 ctx1 kw1 h hbom
          (fun hh => absurd hh (by decide))
      · obtain ⟨a1, a2, a3, a4⟩ := fwd_start_aux fuel c _ _ kw rfl h ih hbom
        refine ⟨?_, a2, a3, fun hcf => Or.inr (a4 hcf)⟩
        rw [a1]
        show (ctx.more ++ []) ++ [c] = ctx.more ++ [c]
        simp
    case comment =>
      simp only [stepState, tok_comment] at h
      split_ifs at h with h1
      · obtain ⟨a1, a2, a3, a4⟩ := fwd_start_aux fuel c _ _ kw rfl h ih hbom
        refine ⟨?_, a2, a3, fun hcf => Or.inr (a4 hcf)⟩
        rw [a1]
        show (ctx.more ++ []) ++ [c] = ctx.more ++ [c]
        simp
      · simp only [Except.ok.injEq, Prod.mk.injEq] at h
        obtain ⟨rfl, rfl, rfl, rfl⟩ := h
        exact buffer_concl (by decide)
    case eol =>
      simp only [stepState, tok_eol] at h
      split_ifs at h with h1 h2
      · simp only [Except.ok.injEq, Prod.mk.injEq] at h
        obtain ⟨rfl, rfl, rfl, rfl⟩ := h
        exact buffer_concl (by decide)
      · simp only [Except.ok.injEq, Prod.mk.injEq] at h
        obtain ⟨rfl, rfl, rfl, rfl⟩ := h
        refine ⟨?_, fun _ => rfl, ?_, fun _ => Or.inr ⟨rfl, rfl⟩⟩
        · show imgs [(terminate_more (next_line (add_more ctx c)) .END_OF_LINE).1] ++ [] =
            ctx.more ++ [c]
          rw [imgs_cons]
          show (next_line (add_more ctx c)).more ++ imgs [] ++ [] = ctx.more ++ [c]
          have hnl : (next_line (add_more ctx c)).more = ctx.more ++ [c] := by
            show (add_more ctx c).more = ctx.more ++ [c]
            exact add_more_more ctx c
          rw [hnl]
          simp [imgs]
        · show (add_more ctx c).is_at_bof = ctx.is_at_bof
          exact add_more_bof ctx c
      · obtain ⟨a1, a2, a3, a4⟩ := fwd_start_aux fuel c _ _ kw rfl h ih hbom
        refine ⟨?_, a2, a3, fun hcf => Or.inr (a4 hcf)⟩
        rw [a1]
        show (ctx.more ++ []) ++ [c] = ctx.more ++ [c]
        simp
    case identifier =>
      simp only [stepState, tok_identifier] at h
      split_ifs at h with h1 h2
      · simp only [Except.ok.injEq, Prod.mk.injEq] at h
        obtain ⟨rfl, rfl, rfl, rfl⟩ := h
        exact buffer_concl (by decide)
      · simp only [Except.ok.injEq, Prod.mk.injEq] at h
        obtain ⟨rfl, rfl, rfl, rfl⟩ := h
        exact buffer_concl (by decide)
      · obtain ⟨a1, a2, a3, a4⟩ := fwd_start_aux fuel c _ _ _ rfl h ih hbom
        refine ⟨?_, a2, a3, fun hcf => Or.inr (a4 hcf)⟩
        rw [a1]
        show (ctx.more ++ []) ++ [c] = ctx.more ++ [c]
        simp
    case identifierConnector =>
      simp only [stepState, tok_identifier_connector] at h
      split_ifs at h with h1 h2 h3
      · simp only [Except.ok.injEq, Prod.mk.injEq] at h
        obtain ⟨rfl, rfl, rfl, rfl⟩ := h
        exact buffer_concl (by decide)
      · simp only [Except.ok.injEq, Prod.mk.injEq] at h
        obtain ⟨rfl, rfl, rfl, rfl⟩ := h
        exact buffer_concl (by decide)
      · obtain ⟨a1, a2, a3, a4⟩ := fwd_start_aux fuel c _ _ kw rfl h ih hbom
        refine ⟨?_, a2, a3, fun hcf => Or.inr (a4 hcf)⟩
        rw [a1]
        show (ctx.more ++ []) ++ [c] = ctx.more ++ [c]
        simp
      · obtain ⟨a1, a2, a3, a4⟩ := fwd_start_aux fuel c _ _ kw rfl h ih hbom
        refine ⟨?_, a2, a3, fun hcf => Or.inr (a4 hcf)⟩
        rw [a1]
        show (ctx.more ++ []) ++ [c] = ctx.more ++ [c]
        simp
    case errIdentifier =>
      simp only [stepState, err_identifier] at h
      split_ifs at h with h1
      · simp only [Except.ok.injEq, Prod.mk.injEq] at h
        obtain ⟨rfl, rfl, rfl, rfl⟩ := h
        exact buffer_concl (by decide)
      · obtain ⟨a1, a2, a3, a4⟩ := fwd_start_aux fuel c _ _ kw rfl h ih hbom
        refine ⟨?_, a2, a3, fun hcf => Or.inr (a4 hcf)⟩
        rw [a1]
        show (ctx.more ++ []) ++ [c] = ctx.more ++ [c]
        simp
    case symbolic =>
      simp only [stepState, tok_symbolic] at h
      split_ifs at h with h1
      · simp only [Except.ok.injEq, Prod.mk.injEq] at h
        obtain ⟨rfl, rfl, rfl, rfl⟩ := h
        exact buffer_concl (by decide)
      · split at h
        next e hp => exact Except.noConfusion h
        next tsP ctxP hp =>
          obtain ⟨himg, hempty, hbofP⟩ := popAll_ok _ ctx tsP ctxP hp
          obtain ⟨a1, a2, a3, a4⟩ := fwd_start_aux fuel c tsP ctxP kw hempty h ih
            (fun hc => hbofP.trans (hbom hc))
          refine ⟨?_, a2, a3.trans hbofP, fun hcf => Or.inr (a4 hcf)⟩
          rw [a1]
          have himgP : imgs tsP = ctx.more := by
            rw [hempty] at himg
            simpa using himg
          rw [himgP]

theorem runTokens_imgs : ∀ (input : List Char) (s : LexState) (ctx : TokenizerContext)
    (kw : List Str) (ts : List Token) (kw1 : List Str),
    runTokens input s ctx kw = .ok (ts, kw1) →
    (∀ c ∈ input, is_eof c = false) →
    (ctx.is_at_bof = true → input.head? ≠ some '\uFEFF') →
    (s = .start → ctx.more = []) →
    imgs ts = ctx.more ++ input ++ ['\x00'] := by
  intro input
  induction input with
  | nil =>
    intro s ctx kw ts kw1 h _ _ hstart
    simp only [runTokens] at h
    split at h
    next e heq => exact Except.noConfusion h
    next ts0 s1 ctxa kwa heq =>
      split at h
      next hempty => exact Except.noConfusion h
      next hempty =>
        simp only [Except.ok.injEq, Prod.mk.injEq] at h
        obtain ⟨rfl, rfl⟩ := h
        obtain ⟨g1, g2, g3, g4⟩ := stepState_spec lexFuel s '\x00' ctx kw ts0 s1 ctxa kwa heq
          (fun hc => absurd hc (by decide)) hstart
        have hne : ts0 ≠ [] := by
          intro hts
          rw [hts] at hempty
          exact hempty rfl
        rcases g4 (by decide) with hts | ⟨hs1, hm⟩
        · exact absurd hts hne
        · rw [hm] at g1
          simpa using g1
  | cons c rest ih =>
    intro s ctx kw ts kw1 h hchars hbomhead hstart
    have hc : is_eof c = false := hchars c (by simp)
    simp only [runTokens] at h
    split at h
    next e heq => exact Except.noConfusion h
    next ts0 s1 ctxa kwa heq =>
      rw [if_neg (by rw [hc]; simp)] at h
      split at h
      next e heq2 => exact Except.noConfusion h
      next ts2 kwb heq2 =>
        simp only [Except.ok.injEq, Prod.mk.injEq] at h
        obtain ⟨rfl, rfl⟩ := h
        have hbom1 : c = '\uFEFF' → ctx.is_at_bof = false := by
          intro hcf
          cases hb : ctx.is_at_bof with
          | false => rfl
          | true =>
            exact absurd (by rw [hcf] ; rfl) (hbomhead hb)
        obtain ⟨g1, g2, g3, g4⟩ := stepState_spec lexFuel s c ctx kw ts0 s1 ctxa kwa heq
          hbom1 hstart
        have hIH := ih s1 { ctxa with is_at_bof := false } kwa ts2 _ heq2
          (fun d hd => hchars d (by simp [hd]))
          (fun hb => absurd hb (by simp))
          (fun hs1 => g2 hs1)
        rw [imgs_append, hIH]
        show imgs ts0 ++ (ctxa.more ++ rest ++ ['\x00']) = ctx.more ++ (c :: rest) ++ ['\x00']
        calc imgs ts0 ++ (ctxa.more ++ rest ++ ['\x00'])
            = (imgs ts0 ++ ctxa.more) ++ (rest ++ ['\x00']) := by simp [List.append_assoc]
          _ = (ctx.more ++ [c]) ++ (rest ++ ['\x00']) := by rw [g1]
          _ = ctx.more ++ (c :: rest) ++ ['\x00'] := by simp [List.append_assoc]

/-- C1: maximal munch for symbol runs.  Whenever `pop_symbolic` resolves a
buffered run, the peeled spelling is a table entry that is a prefix of the
run and no table entry that is a prefix of the run is longer; concretely,
scanning `<= ` yields exactly one `OP_LEQ` token and scanning `<>` exactly
one `OP_NEQ` token, never two one-character tokens. -/
theorem maximal_munch :
    (∀ (ctx : TokenizerContext) (t : Token) (ctx1 : TokenizerContext),
      pop_symbolic ctx = .ok (t, ctx1) →
      t.img.isPrefixOf ctx.more = true ∧ t.img ∈ SYMBOL_LIST ∧
      ∀ s ∈ SYMBOL_LIST, s.isPrefixOf ctx.more = true → s.length ≤ t.img.length)
    ∧ tokenize KEYWORDS "<= ".toList =
        .ok ([⟨.OP_LEQ, "<=".toList, 1, 0⟩, ⟨.EOF, ['\x00'], 1, 0⟩], KEYWORDS)
    ∧ tokenize KEYWORDS "<>".toList =
        .ok ([⟨.OP_NEQ, "<>".toList, 1, 0⟩, ⟨.EOF, ['\x00'], 1, 0⟩], KEYWORDS) := by
  refine ⟨?_, by rfl, by rfl⟩
  intro ctx t ctx1 h
  obtain ⟨himg, hmem, hpre, hbof, hlt, hfind⟩ := pop_symbolic_ok h
  exact ⟨hpre, hmem,
    fun s hs hp => find_longest_of_sorted SYMBOL_LIST symbolList_sorted hfind s hs hp⟩

/-- Witness for C1: the general longest-prefix property applied to the
concrete buffered run `<=!`, where the two-character spelling `<=` wins. -/
theorem maximal_munch_witness :
    (Token.mk .OP_LEQ "<=".toList 1 0).img.isPrefixOf "<=!".toList = true
    ∧ (Token.mk .OP_LEQ "<=".toList 1 0).img ∈ SYMBOL_LIST
    ∧ ∀ s ∈ SYMBOL_LIST, s.isPrefixOf "<=!".toList = true →
        s.length ≤ (Token.mk .OP_LEQ "<=".toList 1 0).img.length :=
  maximal_munch.1
    { is_at_bof := true, current_line := 1, current_column := 0,
      more := "<=!".toList, more_line := 1, more_column := 0 }
    (Token.mk .OP_LEQ "<=".toList 1 0)
    { is_at_bof := true, current_line := 1, current_column := 0,
      more := ['!'], more_line := 1, more_column := 2 }
    (by rfl)

/-- C2 (code bug): `KEYWORDS` is a one-shot generator, so keyword
classification degrades as it is consumed.  On a fresh module the first
occurrence of `if` is a `KW_IF` token and `ifx` is an identifier, but the
second completion of `if` — within one scan of `if if`, or in a second
scan — is classified as a plain identifier, contradicting the claim that
every scan of `if` yields a keyword token. -/
theorem keyword_generator_consumed :
    kindsOf (tokenize KEYWORDS "if ".toList) = .ok [.KW_IF, .EOF]
    ∧ kindsOf (tokenize KEYWORDS "ifx".toList) = .ok [.IDENTIFIER, .EOF]
    ∧ kindsOf (tokenize KEYWORDS "if if".toList) = .ok [.KW_IF, .IDENTIFIER, .EOF]
    ∧ ((tokenize KEYWORDS "if".toList).bind
        (fun p => kindsOf (tokenize p.2 "if".toList))) = .ok [.IDENTIFIER, .EOF] :=
  ⟨rfl, rfl, rfl, rfl⟩

/-- C3 (code bug): `check_keywords` mutates the module-level keyword
generator: testing `if` consumes the generator, so an identical second call
returns `IDENTIFIER` instead of `KW_IF`, and the keyword collection left
behind differs from the freshly initialized one. -/
theorem check_keywords_stateful :
    (check_keywords KEYWORDS "if".toList).1 = .KW_IF
    ∧ (check_keywords (check_keywords KEYWORDS "if".toList).2 "if".toList).1 = .IDENTIFIER
    ∧ (check_keywords KEYWORDS "if".toList).2 ≠ KEYWORDS :=
  ⟨rfl, rfl, by decide⟩

/-- C4 (code bug): no code path ever increments `current_column`, so every
token on the first line carries column 0; scanning `a b` gives the token
`b` the column 0, not the claimed column 2 of its first character. -/
theorem column_never_advanced :
    (tokenize KEYWORDS "a b".toList).map
        (fun p => p.1.map (fun t => (t.kind, t.img, t.line, t.column)))
      = .ok [(.IDENTIFIER, ['a'], 1, 0), (.IDENTIFIER, ['b'], 1, 0),
             (.EOF, ['\x00'], 1, 0)] := by
  rfl

set_option maxHeartbeats 1000000 in
/-- Counterexample to C5: scanning `a\r\nb` produces two end-of-line
tokens, not one — `tok_eol` completes a token on the `\r` itself and the
following `\n` is buffered into a second end-of-line token. -/
theorem crlf_two_eol_cex :
    (tokenize KEYWORDS "a\r\nb".toList).map
        (fun p => p.1.countP (fun t => decide (t.kind = .END_OF_LINE))) = .ok 2 := by
  rfl

set_option maxHeartbeats 1000000 in
/-- C5 as amended: `a\r\nb` yields identifier `a`, an end-of-line token
for `\r`, a second end-of-line token for `\n`, then identifier `b`;
`\r` alone and `\n\r` are each one end-of-line token, while `\r\n` is
two. -/
theorem eol_normalization_amended :
    tokenize KEYWORDS "a\r\nb".toList =
      .ok ([⟨.IDENTIFIER, ['a'], 1, 0⟩, ⟨.END_OF_LINE, ['\r'], 1, 0⟩,
            ⟨.END_OF_LINE, ['\n'], 2, 0⟩, ⟨.IDENTIFIER, ['b'], 3, 0⟩,
            ⟨.EOF, ['\x00'], 3, 0⟩], [])
    ∧ tokenize KEYWORDS "\r".toList =
        .ok ([⟨.END_OF_LINE, ['\r'], 1, 0⟩, ⟨.EOF, ['\x00'], 2, 0⟩], KEYWORDS)
    ∧ tokenize KEYWORDS "\r\n".toList =
        .ok ([⟨.END_OF_LINE, ['\r'], 1, 0⟩, ⟨.END_OF_LINE, ['\n'], 2, 0⟩,
              ⟨.EOF, ['\x00'], 3, 0⟩], KEYWORDS)
    ∧ tokenize KEYWORDS "\n\r".toList =
        .ok ([⟨.END_OF_LINE, "\n\r".toList, 1, 0⟩, ⟨.EOF, ['\x00'], 2, 0⟩], KEYWORDS) :=
  ⟨rfl, rfl, rfl, rfl⟩

/-- Counterexample to C6: `?` is classified as symbolic but has no spelling
in the symbol table, so scanning `? ` aborts with the unresolved-symbol-run
error instead of completing. -/
theorem question_mark_unrepresentable_cex :
    is_symbolic '?' = true
    ∧ (SYMBOLS.lookup ['?']).isNone = true
    ∧ tokenize KEYWORDS "? ".toList = .error ⟨"Unexpected character", 1, 0⟩ :=
  ⟨rfl, by decide, rfl⟩

set_option maxHeartbeats 4000000 in
/-- C6 as amended: every individually symbolic character except the four
table-less ones `?`, `\`, `|`, `~` has a matching single-character spelling
in the symbol table, and scanning it alone followed by a space completes
without a lexical error. -/
theorem symbolic_coverage_amended :
    ∀ c : Char, is_symbolic c = true → c ∉ ['?', '\\', '|', '~'] →
      (SYMBOLS.lookup [c]).isSome = true
      ∧ isOkE (tokenize KEYWORDS [c, ' ']) = true := by
  intro c hc hne
  have hmem : c ∈ symbolicChars := by
    have := of_decide_eq_true hc
    exact this
  have hl : symbolicChars = ['!', '$', '%', '&', '(', ')', '*', '+', ',', '-', '.',
      '/', ':', ';', '<', '=', '>', '?', '@', '[', '\\', ']', '^', '\x7b', '|',
      '\x7d', '~'] := rfl
  rw [hl] at hmem
  simp only [List.mem_cons, List.not_mem_nil, or_false] at hmem
  rcases hmem with rfl|rfl|rfl|rfl|rfl|rfl|rfl|rfl|rfl|rfl|rfl|rfl|rfl|rfl|rfl|rfl|rfl|rfl|rfl|rfl|rfl|rfl|rfl|rfl|rfl|rfl|rfl
  all_goals first
    | exact absurd (by decide) hne
    | exact ⟨rfl, rfl⟩

/-- Witness for C6 as amended: the symbolic character `<` has a table
spelling and scans cleanly on its own. -/
theorem symbolic_coverage_amended_witness :
    (SYMBOLS.lookup ['<']).isSome = true
    ∧ isOkE (tokenize KEYWORDS ['<', ' ']) = true :=
  symbolic_coverage_amended '<' (by decide) (by decide)

/-- Counterexample to C7: U+203F UNDERTIE is connector punctuation, so
`is_identifier_connector` accepts it, yet the start state only dispatches
the literal underscore and raises an unexpected-character error on it. -/
theorem undertie_connector_rejected_cex :
    is_identifier_connector '‿' = true
    ∧ tokenize KEYWORDS ['‿', ' '] = .error ⟨"Unexpected character", 1, 0⟩ :=
  ⟨by decide, rfl⟩

/-- C7 as amended: only the underscore reaches identifier scanning as a
first character.  Whenever the connector state completes on a buffer that
is exactly `_`, the first emitted token is a dummy identifier whose text
is `_` at the buffer's recorded position; concretely, scanning `_ ` yields
exactly one dummy-identifier token with text `_`. -/
theorem dummy_identifier_amended :
    (∀ (fuel : Nat) (c : Char) (ctx : TokenizerContext) (kw : List Str)
       (ts : List Token) (s1 : LexState) (ctx1 : TokenizerContext) (kw1 : List Str),
       is_identifier_continue c = false → is_identifier_connector c = false →
       ctx.more = ['_'] →
       tok_identifier_connector (fuel + 1) c ctx kw = .ok (ts, s1, ctx1, kw1) →
       ts.head? = some ⟨.DUMMY_IDENTIFIER, ['_'], ctx.more_line, ctx.more_column⟩)
    ∧ tokenize KEYWORDS "_ ".toList =
        .ok ([⟨.DUMMY_IDENTIFIER, ['_'], 1, 0⟩, ⟨.EOF, ['\x00'], 1, 0⟩], KEYWORDS) := by
  refine ⟨?_, by rfl⟩
  intro fuel c ctx kw ts s1 ctx1 kw1 hcont hconn hm h
  simp only [tok_identifier_connector] at h
  split_ifs at h with a1 a2
  · rw [hcont] at a1; cases a1
  · rw [hconn] at a2; cases a2
  · obtain ⟨ts2, hinner, rfl⟩ := fwdTokens_ok h
    show (((terminate_more ctx .DUMMY_IDENTIFIER).1 :: ts2).head? = _)
    simp [terminate_more, hm]

/-- Witness for C7 as amended: the connector state completing on `_` at
position (5, 7) with a following space emits the dummy token first. -/
theorem dummy_identifier_amended_witness :
    [Token.mk .DUMMY_IDENTIFIER ['_'] 5 7,].head? =
      some ⟨.DUMMY_IDENTIFIER, ['_'], 5, 7⟩ :=
  dummy_identifier_amended.1 7 ' '
    { is_at_bof := false, current_line := 5, current_column := 8, more := ['_'],
      more_line := 5, more_column := 7 } []
    [Token.mk .DUMMY_IDENTIFIER ['_'] 5 7] .whitespace
    { is_at_bof := false, current_line := 5, current_column := 8, more := [' '],
      more_line := 5, more_column := 8 } []
    (by decide) (by decide) rfl (by rfl)

/-- Counterexample to C8: on the empty input the state machine produces a
single end-of-stream token whose image is the NUL sentinel supplied by the
driver, so the concatenated images are `"\x00"`, not the original (empty)
input. -/
theorem total_coverage_cex :
    (runAll KEYWORDS []).map (fun p => imgs p.1) = .ok ['\x00']
    ∧ ['\x00'] ≠ ([] : Str) :=
  ⟨rfl, by decide⟩

/-- C8 as amended: for every input containing no end-of-stream characters
and not beginning with a byte-order mark, a successful scan's tokens
(whitespace tokens included) concatenate to the input followed by the NUL
sentinel that forms the end-of-stream token's image. -/
theorem total_coverage_amended :
    ∀ (kw : List Str) (input : List Char) (ts : List Token) (kw1 : List Str),
      (∀ c ∈ input, is_eof c = false) →
      input.head? ≠ some '﻿' →
      runAll kw input = .ok (ts, kw1) →
      imgs ts = input ++ ['\x00'] := by
  intro kw input ts kw1 hchars hbom h
  have hrun := runTokens_imgs input .start {} kw ts kw1 h hchars (fun _ => hbom)
    (fun _ => rfl)
  simpa using hrun

/-- Witness for C8 as amended: the single-character input `a` scans to an
identifier token and the end-of-stream token, whose images concatenate to
`a` plus the sentinel. -/
theorem total_coverage_amended_witness :
    imgs [Token.mk .IDENTIFIER ['a'] 1 0, Token.mk .EOF ['\x00'] 1 0] =
      ['a'] ++ ['\x00'] :=
  total_coverage_amended KEYWORDS ['a']
    [Token.mk .IDENTIFIER ['a'] 1 0, Token.mk .EOF ['\x00'] 1 0] []
    (by decide) (by decide) (by rfl)

set_option maxHeartbeats 1000000 in
/-- C9: malformed-identifier recovery is non-fatal.  Scanning `a__b c`
succeeds, produces exactly one erroneous-identifier token covering the
whole run `a__b`, and tokenization resumes normally with the identifier
`c`. -/
theorem malformed_identifier_recovery :
    tokenize KEYWORDS "a__b c".toList =
      .ok ([⟨.ERR_IDENTIFIER, "a__b".toList, 1, 0⟩, ⟨.IDENTIFIER, ['c'], 1, 0⟩,
            ⟨.EOF, ['\x00'], 1, 0⟩], [])
    ∧ (tokenize KEYWORDS "a__b c".toList).map
        (fun p => p.1.countP (fun t => decide (t.kind = .ERR_IDENTIFIER))) = .ok 1 :=
  ⟨rfl, rfl⟩

/-- Counterexample to C10: a SUB character consumed in the comment state is
buffered without completing a token, so the driver raises the
unexpected-end-of-file error instead of yielding an end-of-stream token. -/
theorem sub_in_comment_cex :
    tokenize KEYWORDS " #c\x1A".toList = .error ⟨"Unexpected end of file", 1, 0⟩ := by
  rfl

/-- C10 as amended: a mid-stream SUB acts as end-of-stream — the driver
never reads past it, so the scan's outcome is independent of everything
after it; outside the comment state it yields an end-of-stream token whose
text is the SUB itself, as in `a\x1Ab`, whose `b` is never tokenized. -/
theorem sub_end_of_stream_amended :
    (∀ (rest : List Char) (s : LexState) (ctx : TokenizerContext) (kw : List Str),
       runTokens ('\x1A' :: rest) s ctx kw = runTokens ['\x1A'] s ctx kw)
    ∧ tokenize KEYWORDS "a\x1Ab".toList =
        .ok ([⟨.IDENTIFIER, ['a'], 1, 0⟩, ⟨.EOF, ['\x1A'], 1, 0⟩], []) := by
  refine ⟨?_, by rfl⟩
  intro rest s ctx kw
  cases hstep : stepState lexFuel s '\x1A' ctx kw with
  | error e => simp only [runTokens, hstep]
  | ok p =>
    obtain ⟨ts0, s1, ctx1, kw1⟩ := p
    simp only [runTokens, hstep]
    rw [if_pos (by decide : is_eof '\x1A' = true), if_pos (by decide : is_eof '\x1A' = true)]

/-- Witness for C10 as amended: with a following character `b`, the run
from the start state equals the run with nothing after the SUB. -/
theorem sub_end_of_stream_amended_witness :
    runTokens ('\x1A' :: ['b']) .start {} KEYWORDS =
      runTokens ['\x1A'] .start {} KEYWORDS :=
  sub_end_of_stream_amended.1 ['b'] .start {} KEYWORDS

end Steps
